import Mathlib

/-
Verification of the Beam offline-payment escrow program
(src/program/programs/program/src/{lib.rs, state.rs, attestation.rs}).

Modelling conventions:
* u64 / u32 / u16 values are Nat; every checked_add / checked_sub /
  checked_mul of the Rust source is an explicit Option-valued operation
  with the 2^64 (resp. 2^32) bound, so overflow behaviour is preserved.
* i64 timestamps are Int.  The only i64 arithmetic in the source is
  `now - attestation_timestamp` in attestation.rs; the theorems below
  about it quantify over exact integers.
* Pubkey and 32-byte hashes ([u8; 32]) are Nat (compared only for
  equality in the source); the all-zero sentinel [0u8; 32] is 0.
* keccak, the sha256 attestation-root computation, and ed25519
  signature verification are external collaborator interfaces (spec
  section 6); they enter the model as parameters `dg`, `cr`, `sv`.
  A signature whose bytes do not parse makes the Rust code return
  false, which is folded into the `sv` parameter.
* Each instruction is a function returning `Except BeamError σ`.
  The Solana runtime discards every account write of an instruction
  that returns an error, so the error branch of the Except carries no
  state: the caller-observable effect of a failed call is the
  unchanged pre-state (see `applyOp`).
-/

namespace Beam

/-- 2^64, the modulus of the u64 type. -/
def U64_MOD : Nat := 2 ^ 64

/-- 2^32, the modulus of the u32 type. -/
def U32_MOD : Nat := 2 ^ 32

/-- u64 checked_add: `a.checked_add(b)` in the source. -/
def checked_add (a b : Nat) : Option Nat :=
  if a + b < U64_MOD then some (a + b) else none

/-- u64 checked_sub: `a.checked_sub(b)` in the source. -/
def checked_sub (a b : Nat) : Option Nat :=
  if b ≤ a then some (a - b) else none

/-- u64 checked_mul: `a.checked_mul(b)` in the source. -/
def checked_mul (a b : Nat) : Option Nat :=
  if a * b < U64_MOD then some (a * b) else none

/-- u32 checked_add, used for `fraud_count`. -/
def checked_add_u32 (a b : Nat) : Option Nat :=
  if a + b < U32_MOD then some (a + b) else none

/-- The eviction-then-push pattern used for all three bounded lists:
`if v.len() >= CAP { v.remove(0); } v.push(x);`. -/
def pushCap {α : Type} (cap : Nat) (l : List α) (x : α) : List α :=
  (if cap ≤ l.length then l.drop 1 else l) ++ [x]

/-- MAX_RECENT_HASHES in lib.rs. -/
def MAX_RECENT_HASHES : Nat := 16

/-- MAX_BUNDLE_HISTORY in state.rs. -/
def MAX_BUNDLE_HISTORY : Nat := 32

/-- MAX_FRAUD_RECORDS in state.rs. -/
def MAX_FRAUD_RECORDS : Nat := 16

/-- MAX_ATTESTATION_AGE in attestation.rs (24 hours in seconds). -/
def MAX_ATTESTATION_AGE : Int := 86400

inductive AttestationRole : Type
  | Payer
  | Merchant
deriving DecidableEq

structure AttestationProof : Type where
  attestation_root : Nat
  attestation_nonce : Nat
  attestation_timestamp : Int
  verifier_signature : Nat
deriving DecidableEq

structure SettlementEvidence : Type where
  payer_proof : Option AttestationProof
  merchant_proof : Option AttestationProof
deriving DecidableEq

/-- The attestation-root computation (sha256 over a fixed preimage
layout in the source) as an abstract collaborator function of
role, bundle_id, payer, merchant, amount, bundle_nonce,
attestation_nonce and attestation_timestamp. -/
def RootFn : Type := AttestationRole → String → Nat → Nat → Nat → Nat → Nat → Int → Nat

/-- ed25519 verification of the root under the fixed verifier key,
as an abstract collaborator function of message and signature bytes. -/
def SigFn : Type := Nat → Nat → Bool

/-- The freshness rejection condition of verify_attestation:
`proof.attestation_timestamp <= 0 || (now - proof.attestation_timestamp).abs() > MAX_ATTESTATION_AGE`. -/
def attestation_stale (ts now : Int) : Bool :=
  decide (ts ≤ 0 ∨ MAX_ATTESTATION_AGE < |now - ts|)

/-- verify_attestation from attestation.rs. -/
def verify_attestation (cr : RootFn) (sv : SigFn) (proof : AttestationProof)
    (role : AttestationRole) (bundle_id : String) (payer merchant : Nat)
    (amount bundle_nonce : Nat) (now : Int) : Bool :=
  if attestation_stale proof.attestation_timestamp now then false
  else
    let expected_root := cr role bundle_id payer merchant amount bundle_nonce
      proof.attestation_nonce proof.attestation_timestamp
    if proof.attestation_root ≠ expected_root then false
    else sv expected_root proof.verifier_signature

structure BundleRecord : Type where
  bundle_hash : Nat
  merchant : Nat
  amount : Nat
  settled_at : Int
  nonce : Nat
deriving DecidableEq

inductive FraudReason : Type
  | DuplicateBundle
  | InvalidAttestation
  | Other
deriving DecidableEq

structure FraudRecord : Type where
  bundle_hash : Nat
  conflicting_hash : Nat
  reporter : Nat
  reported_at : Int
  reason : FraudReason
deriving DecidableEq

structure OfflineEscrowAccount : Type where
  owner : Nat
  escrow_token_account : Nat
  escrow_balance : Nat
  last_nonce : Nat
  reputation_score : Nat
  total_spent : Nat
  created_at : Int
  bump : Nat
  stake_locked : Nat
  fraud_count : Nat
  last_fraud_timestamp : Int
deriving DecidableEq

structure NonceRegistry : Type where
  owner : Nat
  last_nonce : Nat
  recent_bundle_hashes : List Nat
  bundle_history : List BundleRecord
  fraud_records : List FraudRecord
  bump : Nat
deriving DecidableEq

inductive BeamError : Type
  | InvalidAmount
  | InsufficientFunds
  | InvalidNonce
  | InvalidEscrowTokenAccount
  | InvalidOwner
  | MissingAttestation
  | InvalidAttestation
  | InvalidBundleId
  | DuplicateBundle
  | InvalidBundleHash
  | BundleHistoryNotFound
  | FraudHashMatches
  | FraudEvidenceExists
  | Overflow
  | Underflow
  | InsufficientFundsForSlash
deriving DecidableEq

/-- Arguments of settle_offline_payment; payer and merchant are the
keys of the corresponding accounts in the SettlePayment context. -/
structure SettleArgs : Type where
  amount : Nat
  payer_nonce : Nat
  bundle_id : String
  evidence : SettlementEvidence
  payer : Nat
  merchant : Nat
deriving DecidableEq

/-- Arguments of report_fraudulent_bundle; payer and reporter are the
keys of the corresponding accounts in the ReportFraud context. -/
structure ReportArgs : Type where
  bundle_id : String
  conflicting_hash : Nat
  reason : FraudReason
  payer : Nat
  reporter : Nat
deriving DecidableEq

/-- The optional payer-attestation gate of settle_offline_payment:
if a payer proof is supplied it must verify for role Payer, absence passes. -/
def payerProofOk (cr : RootFn) (sv : SigFn) (now : Int) (args : SettleArgs) : Bool :=
  match args.evidence.payer_proof with
  | some p => verify_attestation cr sv p AttestationRole.Payer args.bundle_id
      args.payer args.merchant args.amount args.payer_nonce now
  | none => true

/-- The optional merchant-attestation gate of settle_offline_payment. -/
def merchantProofOk (cr : RootFn) (sv : SigFn) (now : Int) (args : SettleArgs) : Bool :=
  match args.evidence.merchant_proof with
  | some p => verify_attestation cr sv p AttestationRole.Merchant args.bundle_id
      args.payer args.merchant args.amount args.payer_nonce now
  | none => true

/-- The BundleRecord appended to bundle_history by a successful settlement. -/
def settledRecord (dg : String → Nat) (now : Int) (args : SettleArgs) : BundleRecord :=
  { bundle_hash := dg args.bundle_id
    merchant := args.merchant
    amount := args.amount
    settled_at := now
    nonce := args.payer_nonce }

/-- settle_offline_payment from lib.rs.  `dg` is the keccak digest of the
bundle_id bytes; the external escrow-to-merchant token transfer precedes
every state mutation and its failure aborts the instruction with no
observable write, so it is not modelled as a separate failure case. -/
def settle_offline_payment (dg : String → Nat) (cr : RootFn) (sv : SigFn) (now : Int)
    (escrow : OfflineEscrowAccount) (registry : NonceRegistry) (args : SettleArgs) :
    Except BeamError (OfflineEscrowAccount × NonceRegistry) :=
  if 0 < args.bundle_id.utf8ByteSize ∧ args.bundle_id.utf8ByteSize ≤ 128 then
    if payerProofOk cr sv now args then
      if merchantProofOk cr sv now args then
        if registry.owner = args.payer then
          if dg args.bundle_id ∈ registry.recent_bundle_hashes then
            Except.error BeamError.DuplicateBundle
          else
            if registry.last_nonce < args.payer_nonce then
              if escrow.last_nonce < args.payer_nonce then
                if args.amount ≤ escrow.escrow_balance then
                  match checked_sub escrow.escrow_balance args.amount with
                  | none => Except.error BeamError.Underflow
                  | some newBal =>
                    match checked_add escrow.total_spent args.amount with
                    | none => Except.error BeamError.Overflow
                    | some newSpent =>
                      Except.ok
                        ({ escrow with
                            escrow_balance := newBal
                            last_nonce := args.payer_nonce
                            total_spent := newSpent },
                         { registry with
                            last_nonce := args.payer_nonce
                            recent_bundle_hashes :=
                              pushCap MAX_RECENT_HASHES registry.recent_bundle_hashes
                                (dg args.bundle_id)
                            bundle_history :=
                              pushCap MAX_BUNDLE_HISTORY registry.bundle_history
                                (settledRecord dg now args) })
                else Except.error BeamError.InsufficientFunds
              else Except.error BeamError.InvalidNonce
            else Except.error BeamError.InvalidNonce
        else Except.error BeamError.InvalidOwner
      else Except.error BeamError.InvalidAttestation
    else Except.error BeamError.InvalidAttestation
  else Except.error BeamError.InvalidBundleId

/-- report_fraudulent_bundle from lib.rs.  The Rust source pushes the
FraudRecord before the slash validation; when a later require fails the
runtime discards that write together with every other one, so the push
is a let-bound intermediate value used only on the success path. -/
def report_fraudulent_bundle (dg : String → Nat) (now : Int)
    (escrow : OfflineEscrowAccount) (registry : NonceRegistry) (args : ReportArgs) :
    Except BeamError (OfflineEscrowAccount × NonceRegistry) :=
  if 0 < args.bundle_id.utf8ByteSize ∧ args.bundle_id.utf8ByteSize ≤ 128 then
    if args.conflicting_hash ≠ 0 then
      if registry.owner = args.payer then
        if ∃ rec ∈ registry.bundle_history, rec.bundle_hash = dg args.bundle_id then
          if dg args.bundle_id ≠ args.conflicting_hash then
            if ∃ fr ∈ registry.fraud_records,
                fr.bundle_hash = dg args.bundle_id ∧
                fr.conflicting_hash = args.conflicting_hash then
              Except.error BeamError.FraudEvidenceExists
            else
              let newFraud := pushCap MAX_FRAUD_RECORDS registry.fraud_records
                { bundle_hash := dg args.bundle_id
                  conflicting_hash := args.conflicting_hash
                  reporter := args.reporter
                  reported_at := now
                  reason := args.reason }
              match registry.bundle_history.find?
                  (fun rec => rec.bundle_hash == dg args.bundle_id) with
              | none => Except.error BeamError.BundleHistoryNotFound
              | some fraud_bundle =>
                match checked_mul fraud_bundle.amount 2 with
                | none => Except.error BeamError.Overflow
                | some slash_amount =>
                  if slash_amount ≤ escrow.escrow_balance then
                    match checked_sub escrow.escrow_balance slash_amount with
                    | none => Except.error BeamError.Underflow
                    | some newBal =>
                      match checked_add escrow.stake_locked slash_amount with
                      | none => Except.error BeamError.Overflow
                      | some newStake =>
                        match checked_add_u32 escrow.fraud_count 1 with
                        | none => Except.error BeamError.Overflow
                        | some newCount =>
                          Except.ok
                            ({ escrow with
                                escrow_balance := newBal
                                stake_locked := newStake
                                fraud_count := newCount
                                last_fraud_timestamp := now
                                reputation_score := escrow.reputation_score - 1000 },
                             { registry with fraud_records := newFraud })
                  else Except.error BeamError.InsufficientFundsForSlash
          else Except.error BeamError.FraudHashMatches
        else Except.error BeamError.BundleHistoryNotFound
      else Except.error BeamError.InvalidOwner
    else Except.error BeamError.InvalidBundleHash
  else Except.error BeamError.InvalidBundleId

/-- fund_escrow from lib.rs; the external owner-to-escrow transfer
precedes the balance update and fails the whole instruction. -/
def fund_escrow (escrow : OfflineEscrowAccount) (amount : Nat) :
    Except BeamError OfflineEscrowAccount :=
  if 0 < amount then
    match checked_add escrow.escrow_balance amount with
    | none => Except.error BeamError.Overflow
    | some nb => Except.ok { escrow with escrow_balance := nb }
  else Except.error BeamError.InvalidAmount

/-- withdraw_escrow from lib.rs. -/
def withdraw_escrow (escrow : OfflineEscrowAccount) (amount : Nat) :
    Except BeamError OfflineEscrowAccount :=
  if 0 < amount then
    if amount ≤ escrow.escrow_balance then
      match checked_sub escrow.escrow_balance amount with
      | none => Except.error BeamError.Underflow
      | some nb => Except.ok { escrow with escrow_balance := nb }
    else Except.error BeamError.InsufficientFunds
  else Except.error BeamError.InvalidAmount

/-- initialize_escrow from lib.rs: all fields zeroed except owner,
token account, creation time and the initial reputation of 100; the
balance ends equal to initial_amount (0 then set when positive). -/
def initEscrow (owner tok : Nat) (initial_amount : Nat) (now : Int) :
    OfflineEscrowAccount :=
  { owner := owner
    escrow_token_account := tok
    escrow_balance := initial_amount
    last_nonce := 0
    reputation_score := 100
    total_spent := 0
    created_at := now
    bump := 0
    stake_locked := 0
    fraud_count := 0
    last_fraud_timestamp := 0 }

/-- initialize_nonce_registry from lib.rs. -/
def initNonceRegistry (payer : Nat) : NonceRegistry :=
  { owner := payer
    last_nonce := 0
    recent_bundle_hashes := []
    bundle_history := []
    fraud_records := []
    bump := 0 }

/-- A payer's full on-chain state together with ghost accounting
totals (funded, withdrawn, slashed) used only to state conservation. -/
structure Chain : Type where
  escrow : OfflineEscrowAccount
  registry : NonceRegistry
  funded : Nat
  withdrawn : Nat
  slashed : Nat
deriving DecidableEq

/-- The public operations on one payer after initialization. -/
inductive Op : Type
  | fund (amount : Nat)
  | withdraw (amount : Nat)
  | settle (now : Int) (args : SettleArgs)
  | report (now : Int) (args : ReportArgs)
deriving DecidableEq

/-- One instruction as observed by the caller: the Solana runtime
reverts all account writes of a failed instruction, so an error leaves
the pre-state; ghost totals advance only on success. -/
def applyOp (dg : String → Nat) (cr : RootFn) (sv : SigFn) (c : Chain) : Op → Chain
  | Op.fund a =>
    match fund_escrow c.escrow a with
    | Except.ok e' => { c with escrow := e', funded := c.funded + a }
    | Except.error _ => c
  | Op.withdraw a =>
    match withdraw_escrow c.escrow a with
    | Except.ok e' => { c with escrow := e', withdrawn := c.withdrawn + a }
    | Except.error _ => c
  | Op.settle now args =>
    match settle_offline_payment dg cr sv now c.escrow c.registry args with
    | Except.ok er => { c with escrow := er.1, registry := er.2 }
    | Except.error _ => c
  | Op.report now args =>
    match report_fraudulent_bundle dg now c.escrow c.registry args with
    | Except.ok er =>
      { c with
          escrow := er.1
          registry := er.2
          slashed := c.slashed + (er.1.stake_locked - c.escrow.stake_locked) }
    | Except.error _ => c

/-- A freshly initialized payer: initialize_escrow plus
initialize_nonce_registry; the initial transfer counts as funded. -/
def initChain (owner tok : Nat) (initial_amount : Nat) (now : Int) : Chain :=
  { escrow := initEscrow owner tok initial_amount now
    registry := initNonceRegistry owner
    funded := initial_amount
    withdrawn := 0
    slashed := 0 }

/-- Apply a sequence of operations. -/
def applyOps (dg : String → Nat) (cr : RootFn) (sv : SigFn) (c : Chain)
    (ops : List Op) : Chain :=
  ops.foldl (applyOp dg cr sv) c

/-- Run a sequence of settlements, requiring every one to succeed. -/
def settleAll (dg : String → Nat) (cr : RootFn) (sv : SigFn) :
    Chain → List (Int × SettleArgs) → Option Chain
  | c, [] => some c
  | c, q :: rest =>
    match settle_offline_payment dg cr sv q.1 c.escrow c.registry q.2 with
    | Except.ok er => settleAll dg cr sv { c with escrow := er.1, registry := er.2 } rest
    | Except.error _ => none

end Beam

namespace Beam

/-- Reading of a successful u64 checked_add. -/
theorem checked_add_some {a b c : Nat} (h : checked_add a b = some c) :
    a + b < U64_MOD ∧ c = a + b := by
  unfold checked_add at h
  split at h
  · exact ⟨by assumption, by injection h with h; exact h.symm⟩
  · cases h

/-- Reading of a successful u64 checked_sub. -/
theorem checked_sub_some {a b c : Nat} (h : checked_sub a b = some c) :
    b ≤ a ∧ c = a - b := by
  unfold checked_sub at h
  split at h
  · exact ⟨by assumption, by injection h with h; exact h.symm⟩
  · cases h

/-- Reading of a successful u64 checked_mul. -/
theorem checked_mul_some {a b c : Nat} (h : checked_mul a b = some c) :
    a * b < U64_MOD ∧ c = a * b := by
  unfold checked_mul at h
  split at h
  · exact ⟨by assumption, by injection h with h; exact h.symm⟩
  · cases h

/-- Reading of a successful u32 checked_add. -/
theorem checked_add_u32_some {a b c : Nat} (h : checked_add_u32 a b = some c) :
    a + b < U32_MOD ∧ c = a + b := by
  unfold checked_add_u32 at h
  split at h
  · exact ⟨by assumption, by injection h with h; exact h.symm⟩
  · cases h

/-- Success characterization of fund_escrow. -/
theorem fund_ok_spec {e e' : OfflineEscrowAccount} {a : Nat}
    (h : fund_escrow e a = Except.ok e') :
    0 < a ∧ e.escrow_balance + a < U64_MOD ∧
      e' = { e with escrow_balance := e.escrow_balance + a } := by
  unfold fund_escrow at h
  split at h
  · split at h
    · cases h
    · rename_i nb heq
      obtain ⟨hov, rfl⟩ := checked_add_some heq
      exact ⟨by assumption, hov, by injection h with h; exact h.symm⟩
  · cases h

/-- Success characterization of withdraw_escrow. -/
theorem withdraw_ok_spec {e e' : OfflineEscrowAccount} {a : Nat}
    (h : withdraw_escrow e a = Except.ok e') :
    0 < a ∧ a ≤ e.escrow_balance ∧
      e' = { e with escrow_balance := e.escrow_balance - a } := by
  unfold withdraw_escrow at h
  split at h
  · split at h
    · split at h
      · cases h
      · rename_i nb heq
        obtain ⟨hle, rfl⟩ := checked_sub_some heq
        exact ⟨by assumption, hle, by injection h with h; exact h.symm⟩
    · cases h
  · cases h

end Beam

namespace Beam

/-- checked_sub succeeds exactly on non-underflowing inputs. -/
theorem checked_sub_of_le {a b : Nat} (h : b ≤ a) : checked_sub a b = some (a - b) := by
  unfold checked_sub
  rw [if_pos h]

/-- checked_add succeeds on non-overflowing inputs. -/
theorem checked_add_of_lt {a b : Nat} (h : a + b < U64_MOD) :
    checked_add a b = some (a + b) := by
  unfold checked_add
  rw [if_pos h]

/-- checked_mul succeeds on non-overflowing inputs. -/
theorem checked_mul_of_lt {a b : Nat} (h : a * b < U64_MOD) :
    checked_mul a b = some (a * b) := by
  unfold checked_mul
  rw [if_pos h]

/-- checked_mul fails exactly on overflow. -/
theorem checked_mul_none_of_ge {a b : Nat} (h : ¬ a * b < U64_MOD) :
    checked_mul a b = none := by
  unfold checked_mul
  rw [if_neg h]

/-- u32 checked_add succeeds on non-overflowing inputs. -/
theorem checked_add_u32_of_lt {a b : Nat} (h : a + b < U32_MOD) :
    checked_add_u32 a b = some (a + b) := by
  unfold checked_add_u32
  rw [if_pos h]

/-- Success characterization of settle_offline_payment: an Ok result
forces every precondition and fully determines the new accounts. -/
theorem settle_ok_spec {dg : String → Nat} {cr : RootFn} {sv : SigFn} {now : Int}
    {e : OfflineEscrowAccount} {r : NonceRegistry} {args : SettleArgs}
    {er : OfflineEscrowAccount × NonceRegistry}
    (h : settle_offline_payment dg cr sv now e r args = Except.ok er) :
    (0 < args.bundle_id.utf8ByteSize ∧ args.bundle_id.utf8ByteSize ≤ 128) ∧
    payerProofOk cr sv now args = true ∧
    merchantProofOk cr sv now args = true ∧
    r.owner = args.payer ∧
    dg args.bundle_id ∉ r.recent_bundle_hashes ∧
    r.last_nonce < args.payer_nonce ∧
    e.last_nonce < args.payer_nonce ∧
    args.amount ≤ e.escrow_balance ∧
    e.total_spent + args.amount < U64_MOD ∧
    er = ({ e with
            escrow_balance := e.escrow_balance - args.amount
            last_nonce := args.payer_nonce
            total_spent := e.total_spent + args.amount },
          { r with
            last_nonce := args.payer_nonce
            recent_bundle_hashes :=
              pushCap MAX_RECENT_HASHES r.recent_bundle_hashes (dg args.bundle_id)
            bundle_history :=
              pushCap MAX_BUNDLE_HISTORY r.bundle_history (settledRecord dg now args) }) := by
  unfold settle_offline_payment at h
  split at h
  · rename_i hid
    split at h
    · rename_i hp
      split at h
      · rename_i hm
        split at h
        · rename_i hown
          split at h
          · cases h
          · rename_i hdup
            split at h
            · rename_i h1
              split at h
              · rename_i h2
                split at h
                · rename_i hbal
                  split at h
                  · cases h
                  · rename_i nb hsub
                    split at h
                    · cases h
                    · rename_i ns hadd
                      obtain ⟨-, rfl⟩ := checked_sub_some hsub
                      obtain ⟨hsp, rfl⟩ := checked_add_some hadd
                      injection h with h
                      exact ⟨hid, hp, hm, hown, hdup, h1, h2, hbal, hsp, h.symm⟩
                · cases h
              · cases h
            · cases h
        · cases h
      · cases h
    · cases h
  · cases h

/-- Sufficiency: when every precondition of settle_offline_payment
holds, the call succeeds with exactly the updates of the source. -/
theorem settle_complete {dg : String → Nat} {cr : RootFn} {sv : SigFn} {now : Int}
    {e : OfflineEscrowAccount} {r : NonceRegistry} {args : SettleArgs}
    (hid : 0 < args.bundle_id.utf8ByteSize ∧ args.bundle_id.utf8ByteSize ≤ 128)
    (hp : payerProofOk cr sv now args = true)
    (hm : merchantProofOk cr sv now args = true)
    (hown : r.owner = args.payer)
    (hdup : dg args.bundle_id ∉ r.recent_bundle_hashes)
    (h1 : r.last_nonce < args.payer_nonce)
    (h2 : e.last_nonce < args.payer_nonce)
    (hbal : args.amount ≤ e.escrow_balance)
    (hsp : e.total_spent + args.amount < U64_MOD) :
    settle_offline_payment dg cr sv now e r args =
      Except.ok
        ({ e with
            escrow_balance := e.escrow_balance - args.amount
            last_nonce := args.payer_nonce
            total_spent := e.total_spent + args.amount },
         { r with
            last_nonce := args.payer_nonce
            recent_bundle_hashes :=
              pushCap MAX_RECENT_HASHES r.recent_bundle_hashes (dg args.bundle_id)
            bundle_history :=
              pushCap MAX_BUNDLE_HISTORY r.bundle_history (settledRecord dg now args) }) := by
  unfold settle_offline_payment
  rw [if_pos hid, if_pos hp, if_pos hm, if_pos hown, if_neg hdup, if_pos h1, if_pos h2,
    if_pos hbal, checked_sub_of_le hbal, checked_add_of_lt hsp]

end Beam

namespace Beam

/-- The FraudRecord appended by a successful fraud report. -/
def fraudRecordOf (dg : String → Nat) (now : Int) (args : ReportArgs) : FraudRecord :=
  { bundle_hash := dg args.bundle_id
    conflicting_hash := args.conflicting_hash
    reporter := args.reporter
    reported_at := now
    reason := args.reason }

/-- Success characterization of report_fraudulent_bundle: an Ok result
forces every precondition, and the slash is twice the amount of the
first bundle_history record matching the reported hash. -/
theorem report_ok_spec {dg : String → Nat} {now : Int}
    {e : OfflineEscrowAccount} {r : NonceRegistry} {args : ReportArgs}
    {er : OfflineEscrowAccount × NonceRegistry}
    (h : report_fraudulent_bundle dg now e r args = Except.ok er) :
    (0 < args.bundle_id.utf8ByteSize ∧ args.bundle_id.utf8ByteSize ≤ 128) ∧
    args.conflicting_hash ≠ 0 ∧
    r.owner = args.payer ∧
    dg args.bundle_id ≠ args.conflicting_hash ∧
    ¬(∃ fr ∈ r.fraud_records,
        fr.bundle_hash = dg args.bundle_id ∧
        fr.conflicting_hash = args.conflicting_hash) ∧
    ∃ fb, r.bundle_history.find? (fun rec => rec.bundle_hash == dg args.bundle_id) = some fb ∧
      fb.amount * 2 < U64_MOD ∧
      fb.amount * 2 ≤ e.escrow_balance ∧
      e.stake_locked + fb.amount * 2 < U64_MOD ∧
      e.fraud_count + 1 < U32_MOD ∧
      er = ({ e with
              escrow_balance := e.escrow_balance - fb.amount * 2
              stake_locked := e.stake_locked + fb.amount * 2
              fraud_count := e.fraud_count + 1
              last_fraud_timestamp := now
              reputation_score := e.reputation_score - 1000 },
            { r with
              fraud_records :=
                pushCap MAX_FRAUD_RECORDS r.fraud_records (fraudRecordOf dg now args) }) := by
  unfold report_fraudulent_bundle at h
  split at h
  · rename_i hid
    split at h
    · rename_i hch
      split at h
      · rename_i hown
        split at h
        · rename_i hex
          split at h
          · rename_i hne
            split at h
            · cases h
            · rename_i hdup
              split at h
              · cases h
              · rename_i fb hfind
                split at h
                · cases h
                · rename_i slash hmul
                  split at h
                  · rename_i hbal
                    split at h
                    · cases h
                    · rename_i nb hsub
                      split at h
                      · cases h
                      · rename_i ns hadd
                        split at h
                        · cases h
                        · rename_i nc hcount
                          obtain ⟨hmul', rfl⟩ := checked_mul_some hmul
                          obtain ⟨-, rfl⟩ := checked_sub_some hsub
                          obtain ⟨hst, rfl⟩ := checked_add_some hadd
                          obtain ⟨hfc, rfl⟩ := checked_add_u32_some hcount
                          injection h with h
                          exact ⟨hid, hch, hown, hne, hdup,
                            fb, hfind, hmul', hbal, hst, hfc, h.symm⟩
                  · cases h
          · cases h
        · cases h
      · cases h
    · cases h
  · cases h

/-- Sufficiency: when every precondition of report_fraudulent_bundle
holds, the call succeeds with exactly the updates of the source. -/
theorem report_complete {dg : String → Nat} {now : Int}
    {e : OfflineEscrowAccount} {r : NonceRegistry} {args : ReportArgs} {fb : BundleRecord}
    (hid : 0 < args.bundle_id.utf8ByteSize ∧ args.bundle_id.utf8ByteSize ≤ 128)
    (hch : args.conflicting_hash ≠ 0)
    (hown : r.owner = args.payer)
    (hfind : r.bundle_history.find? (fun rec => rec.bundle_hash == dg args.bundle_id) = some fb)
    (hne : dg args.bundle_id ≠ args.conflicting_hash)
    (hdup : ¬(∃ fr ∈ r.fraud_records,
        fr.bundle_hash = dg args.bundle_id ∧
        fr.conflicting_hash = args.conflicting_hash))
    (hmul : fb.amount * 2 < U64_MOD)
    (hbal : fb.amount * 2 ≤ e.escrow_balance)
    (hst : e.stake_locked + fb.amount * 2 < U64_MOD)
    (hfc : e.fraud_count + 1 < U32_MOD) :
    report_fraudulent_bundle dg now e r args =
      Except.ok
        ({ e with
            escrow_balance := e.escrow_balance - fb.amount * 2
            stake_locked := e.stake_locked + fb.amount * 2
            fraud_count := e.fraud_count + 1
            last_fraud_timestamp := now
            reputation_score := e.reputation_score - 1000 },
         { r with
            fraud_records :=
              pushCap MAX_FRAUD_RECORDS r.fraud_records (fraudRecordOf dg now args) }) := by
  have hex : ∃ rec ∈ r.bundle_history, rec.bundle_hash = dg args.bundle_id := by
    refine ⟨fb, List.mem_of_find?_eq_some hfind, ?_⟩
    have := List.find?_some hfind
    exact beq_iff_eq.mp this
  unfold report_fraudulent_bundle
  rw [if_pos hid, if_pos hch, if_pos hown, if_pos hex, if_pos hne, if_neg hdup]
  simp only [hfind, checked_mul_of_lt hmul, if_pos hbal, checked_sub_of_le hbal,
    checked_add_of_lt hst, checked_add_u32_of_lt hfc, fraudRecordOf]

end Beam

namespace Beam

/-- The corrected conservation quantity: slashed funds stay inside the
account as stake_locked, and settled funds are tracked by total_spent. -/
def conserved (c : Chain) : Prop :=
  c.escrow.escrow_balance + c.escrow.stake_locked + c.withdrawn + c.escrow.total_spent
    = c.funded

/-- The conservation equation exactly as the spec states it, with a
separate additive term for the cumulative slashed amounts. -/
def specConservation (c : Chain) : Prop :=
  c.escrow.escrow_balance + c.escrow.stake_locked + c.withdrawn + c.slashed = c.funded

/-- The two last_nonce copies agree. -/
def nonceSync (c : Chain) : Prop :=
  c.escrow.last_nonce = c.registry.last_nonce

theorem applyOp_conserved {dg : String → Nat} {cr : RootFn} {sv : SigFn}
    {c : Chain} {op : Op} (h : conserved c) : conserved (applyOp dg cr sv c op) := by
  cases op with
  | fund a =>
    simp only [applyOp]
    cases hf : fund_escrow c.escrow a with
    | error e => exact h
    | ok e' =>
      obtain ⟨-, -, he⟩ := fund_ok_spec hf
      subst he
      unfold conserved at h ⊢
      simp only
      omega
  | withdraw a =>
    simp only [applyOp]
    cases hf : withdraw_escrow c.escrow a with
    | error e => exact h
    | ok e' =>
      obtain ⟨-, hle, he⟩ := withdraw_ok_spec hf
      subst he
      unfold conserved at h ⊢
      simp only
      omega
  | settle now args =>
    simp only [applyOp]
    cases hs : settle_offline_payment dg cr sv now c.escrow c.registry args with
    | error e => exact h
    | ok er =>
      obtain ⟨-, -, -, -, -, -, -, hbal, -, her⟩ := settle_ok_spec hs
      subst her
      unfold conserved at h ⊢
      simp only
      omega
  | report now args =>
    simp only [applyOp]
    cases hs : report_fraudulent_bundle dg now c.escrow c.registry args with
    | error e => exact h
    | ok er =>
      obtain ⟨-, -, -, -, -, fb, -, -, hbal, -, -, her⟩ := report_ok_spec hs
      subst her
      unfold conserved at h ⊢
      simp only
      omega

theorem applyOps_conserved {dg : String → Nat} {cr : RootFn} {sv : SigFn} :
    ∀ (ops : List Op) (c : Chain), conserved c → conserved (applyOps dg cr sv c ops)
  | [], _, h => h
  | _ :: rest, _, h =>
    applyOps_conserved rest _ (applyOp_conserved h)

theorem applyOp_nonceSync {dg : String → Nat} {cr : RootFn} {sv : SigFn}
    {c : Chain} {op : Op} (h : nonceSync c) : nonceSync (applyOp dg cr sv c op) := by
  cases op with
  | fund a =>
    simp only [applyOp]
    cases hf : fund_escrow c.escrow a with
    | error e => exact h
    | ok e' =>
      obtain ⟨-, -, he⟩ := fund_ok_spec hf
      subst he
      exact h
  | withdraw a =>
    simp only [applyOp]
    cases hf : withdraw_escrow c.escrow a with
    | error e => exact h
    | ok e' =>
      obtain ⟨-, -, he⟩ := withdraw_ok_spec hf
      subst he
      exact h
  | settle now args =>
    simp only [applyOp]
    cases hs : settle_offline_payment dg cr sv now c.escrow c.registry args with
    | error e => exact h
    | ok er =>
      obtain ⟨-, -, -, -, -, -, -, -, -, her⟩ := settle_ok_spec hs
      subst her
      unfold nonceSync
      simp only
  | report now args =>
    simp only [applyOp]
    cases hs : report_fraudulent_bundle dg now c.escrow c.registry args with
    | error e => exact h
    | ok er =>
      obtain ⟨-, -, -, -, -, fb, -, -, -, -, -, her⟩ := report_ok_spec hs
      subst her
      exact h

theorem applyOps_nonceSync {dg : String → Nat} {cr : RootFn} {sv : SigFn} :
    ∀ (ops : List Op) (c : Chain), nonceSync c → nonceSync (applyOps dg cr sv c ops)
  | [], _, h => h
  | _ :: rest, _, h =>
    applyOps_nonceSync rest _ (applyOp_nonceSync h)

theorem applyOp_lastNonce_mono (dg : String → Nat) (cr : RootFn) (sv : SigFn)
    (c : Chain) (op : Op) :
    c.registry.last_nonce ≤ (applyOp dg cr sv c op).registry.last_nonce := by
  cases op with
  | fund a =>
    simp only [applyOp]
    cases fund_escrow c.escrow a <;> simp
  | withdraw a =>
    simp only [applyOp]
    cases withdraw_escrow c.escrow a <;> simp
  | settle now args =>
    simp only [applyOp]
    cases hs : settle_offline_payment dg cr sv now c.escrow c.registry args with
    | error e => simp
    | ok er =>
      obtain ⟨-, -, -, -, -, h1, -, -, -, her⟩ := settle_ok_spec hs
      subst her
      simp only
      omega
  | report now args =>
    simp only [applyOp]
    cases hs : report_fraudulent_bundle dg now c.escrow c.registry args with
    | error e => simp
    | ok er =>
      obtain ⟨-, -, -, -, -, fb, -, -, -, -, -, her⟩ := report_ok_spec hs
      subst her
      simp

theorem applyOps_lastNonce_mono (dg : String → Nat) (cr : RootFn) (sv : SigFn) :
    ∀ (ops : List Op) (c : Chain),
      c.registry.last_nonce ≤ (applyOps dg cr sv c ops).registry.last_nonce
  | [], _ => le_refl _
  | op :: rest, c =>
    le_trans (applyOp_lastNonce_mono dg cr sv c op)
      (applyOps_lastNonce_mono dg cr sv rest _)

end Beam

namespace Beam

/-- pushCap keeps a list at or under its (positive) capacity. -/
theorem pushCap_length_le {α : Type} {cap : Nat} {l : List α} (x : α)
    (hcap : 0 < cap) (h : l.length ≤ cap) : (pushCap cap l x).length ≤ cap := by
  unfold pushCap
  split
  · rename_i hge
    simp only [List.length_append, List.length_drop, List.length_singleton]
    omega
  · rename_i hlt
    simp only [List.length_append, List.length_singleton]
    omega

/-- Pushing onto the suffix of length cap of ys is taking the suffix of
length cap of ys ++ [x]: the FIFO keeps exactly the most recent cap
elements. -/
theorem pushCap_tail {α : Type} {cap : Nat} (hcap : 0 < cap) (ys : List α) (x : α) :
    pushCap cap (ys.drop (ys.length - cap)) x = (ys ++ [x]).drop (ys.length + 1 - cap) := by
  unfold pushCap
  rcases le_or_lt cap ys.length with hge | hlt
  · have hlen : (ys.drop (ys.length - cap)).length = cap := by
      simp only [List.length_drop]
      omega
    rw [if_pos (le_of_eq hlen.symm), List.drop_drop]
    have h1 : ys.length - cap + 1 = ys.length + 1 - cap := by omega
    rw [h1, List.drop_append_of_le_length (by omega)]
  · have h0 : ys.length - cap = 0 := by omega
    have h1 : ys.length + 1 - cap = 0 := by omega
    rw [h0, h1]
    simp only [List.drop_zero]
    rw [if_neg (by omega : ¬ cap ≤ ys.length)]

/-- Along any all-successful settlement run, bundle_history and
recent_bundle_hashes are exactly the most recent cap-many settled
records and bundle hashes. -/
theorem settleAll_tracks (dg : String → Nat) (cr : RootFn) (sv : SigFn) :
    ∀ (qs : List (Int × SettleArgs)) (c c' : Chain)
      (ys : List BundleRecord) (zs : List Nat),
      c.registry.bundle_history = ys.drop (ys.length - MAX_BUNDLE_HISTORY) →
      c.registry.recent_bundle_hashes = zs.drop (zs.length - MAX_RECENT_HASHES) →
      settleAll dg cr sv c qs = some c' →
      c'.registry.bundle_history =
        (ys ++ qs.map (fun q => settledRecord dg q.1 q.2)).drop
          (ys.length + qs.length - MAX_BUNDLE_HISTORY) ∧
      c'.registry.recent_bundle_hashes =
        (zs ++ qs.map (fun q => dg q.2.bundle_id)).drop
          (zs.length + qs.length - MAX_RECENT_HASHES)
  | [], c, c', ys, zs, hys, hzs, hrun => by
    unfold settleAll at hrun
    injection hrun with hrun
    subst hrun
    simp only [List.map_nil, List.append_nil, List.length_nil, Nat.add_zero]
    exact ⟨hys, hzs⟩
  | q :: rest, c, c', ys, zs, hys, hzs, hrun => by
    unfold settleAll at hrun
    cases hs : settle_offline_payment dg cr sv q.1 c.escrow c.registry q.2 with
    | error e =>
      rw [hs] at hrun
      cases hrun
    | ok er =>
      rw [hs] at hrun
      obtain ⟨-, -, -, -, -, -, -, -, -, her⟩ := settle_ok_spec hs
      subst her
      let c₁ : Chain :=
        { c with
          escrow :=
            { c.escrow with
              escrow_balance := c.escrow.escrow_balance - q.2.amount
              last_nonce := q.2.payer_nonce
              total_spent := c.escrow.total_spent + q.2.amount }
          registry :=
            { c.registry with
              last_nonce := q.2.payer_nonce
              recent_bundle_hashes :=
                pushCap MAX_RECENT_HASHES c.registry.recent_bundle_hashes (dg q.2.bundle_id)
              bundle_history :=
                pushCap MAX_BUNDLE_HISTORY c.registry.bundle_history
                  (settledRecord dg q.1 q.2) } }
      have hrun' : settleAll dg cr sv c₁ rest = some c' := hrun
      have hys' : c₁.registry.bundle_history =
          (ys ++ [settledRecord dg q.1 q.2]).drop
            ((ys ++ [settledRecord dg q.1 q.2]).length - MAX_BUNDLE_HISTORY) := by
        show pushCap MAX_BUNDLE_HISTORY c.registry.bundle_history (settledRecord dg q.1 q.2)
          = _
        rw [hys, pushCap_tail (by decide : (0:Nat) < MAX_BUNDLE_HISTORY)]
        simp only [List.length_append, List.length_singleton]
      have hzs' : c₁.registry.recent_bundle_hashes =
          (zs ++ [dg q.2.bundle_id]).drop
            ((zs ++ [dg q.2.bundle_id]).length - MAX_RECENT_HASHES) := by
        show pushCap MAX_RECENT_HASHES c.registry.recent_bundle_hashes (dg q.2.bundle_id)
          = _
        rw [hzs, pushCap_tail (by decide : (0:Nat) < MAX_RECENT_HASHES)]
        simp only [List.length_append, List.length_singleton]
      obtain ⟨ih1, ih2⟩ := settleAll_tracks dg cr sv rest c₁ c'
        (ys ++ [settledRecord dg q.1 q.2]) (zs ++ [dg q.2.bundle_id]) hys' hzs' hrun'
      constructor
      · rw [ih1]
        simp only [List.map_cons]
        rw [List.append_cons ys (settledRecord dg q.1 q.2)]
        congr 1
        · simp only [List.length_append, List.length_singleton, List.length_cons,
            List.length_nil]
          omega
        · simp [List.append_assoc]
      · rw [ih2]
        simp only [List.map_cons]
        rw [List.append_cons zs (dg q.2.bundle_id)]
        congr 1
        · simp only [List.length_append, List.length_singleton, List.length_cons,
            List.length_nil]
          omega
        · simp [List.append_assoc]

end Beam

namespace Beam

/-- All three rolling lists respect their capacities. -/
def listsBounded (c : Chain) : Prop :=
  c.registry.recent_bundle_hashes.length ≤ MAX_RECENT_HASHES ∧
  c.registry.bundle_history.length ≤ MAX_BUNDLE_HISTORY ∧
  c.registry.fraud_records.length ≤ MAX_FRAUD_RECORDS

theorem applyOp_listsBounded {dg : String → Nat} {cr : RootFn} {sv : SigFn}
    {c : Chain} {op : Op} (h : listsBounded c) : listsBounded (applyOp dg cr sv c op) := by
  obtain ⟨h1, h2, h3⟩ := h
  cases op with
  | fund a =>
    simp only [applyOp]
    cases fund_escrow c.escrow a
    · exact ⟨h1, h2, h3⟩
    · exact ⟨h1, h2, h3⟩
  | withdraw a =>
    simp only [applyOp]
    cases withdraw_escrow c.escrow a
    · exact ⟨h1, h2, h3⟩
    · exact ⟨h1, h2, h3⟩
  | settle now args =>
    simp only [applyOp]
    cases hs : settle_offline_payment dg cr sv now c.escrow c.registry args with
    | error e => exact ⟨h1, h2, h3⟩
    | ok er =>
      obtain ⟨-, -, -, -, -, -, -, -, -, her⟩ := settle_ok_spec hs
      subst her
      exact ⟨pushCap_length_le _ (by decide) h1, pushCap_length_le _ (by decide) h2, h3⟩
  | report now args =>
    simp only [applyOp]
    cases hs : report_fraudulent_bundle dg now c.escrow c.registry args with
    | error e => exact ⟨h1, h2, h3⟩
    | ok er =>
      obtain ⟨-, -, -, -, -, fb, -, -, -, -, -, her⟩ := report_ok_spec hs
      subst her
      exact ⟨h1, h2, pushCap_length_le _ (by decide) h3⟩

theorem applyOps_listsBounded {dg : String → Nat} {cr : RootFn} {sv : SigFn} :
    ∀ (ops : List Op) (c : Chain),
      listsBounded c → listsBounded (applyOps dg cr sv c ops)
  | [], _, h => h
  | _ :: rest, _, h =>
    applyOps_listsBounded rest _ (applyOp_listsBounded h)

end Beam

namespace Beam

/-- A concrete executable digest standing in for keccak in witnesses:
the base-256 value of the byte string (injective on the ids used). -/
def dgB : String → Nat := fun s => s.data.foldl (fun a c => 256 * a + c.toNat) 0

/-- A trivial concrete attestation-root function for witnesses (the
witness settlements carry no attestation proofs, so it is never used). -/
def crZ : RootFn := fun _ _ _ _ _ _ _ _ => 0

/-- A trivial concrete signature verifier for witnesses. -/
def svT : SigFn := fun _ _ => true

/-- Claim C5 (amended): at every state reachable from initialization,
escrow_balance + stake_locked + total withdrawn + total_spent equals
total funded; slashed funds remain inside the account as stake_locked
and therefore are not a separate additive term. -/
theorem C5_amended_conservation (dg : String → Nat) (cr : RootFn) (sv : SigFn)
    (owner tok initial : Nat) (now : Int) (ops : List Op) :
    conserved (applyOps dg cr sv (initChain owner tok initial now) ops) := by
  apply applyOps_conserved
  unfold conserved initChain initEscrow
  simp

/-- A concrete settlement request used by witnesses and counterexamples. -/
def argsB1 : SettleArgs :=
  { amount := 100
    payer_nonce := 1
    bundle_id := "b1"
    evidence := { payer_proof := none, merchant_proof := none }
    payer := 1
    merchant := 9 }

/-- The two-operation run refuting the claimed conservation equation. -/
def opsC5 : List Op := [Op.fund 1000, Op.settle 0 argsB1]

/-- Claim C5 (counterexample): the conservation equation as claimed,
with the cumulative slashed amount as a separate additive term, already
fails after fund 1000 followed by a settlement of 100: the settled
amount leaves the balance but appears in none of the claimed terms. -/
theorem C5_counterexample :
    (applyOps dgB crZ svT (initChain 1 2 0 0) opsC5).escrow.escrow_balance = 900 ∧
    (applyOps dgB crZ svT (initChain 1 2 0 0) opsC5).funded = 1000 ∧
    ¬ specConservation (applyOps dgB crZ svT (initChain 1 2 0 0) opsC5) := by
  refine ⟨by decide, by decide, ?_⟩
  unfold specConservation
  decide

/-- Claim C9: a successful settlement writes payer_nonce into both
last_nonce copies, no other operation changes either copy, and the two
copies agree in every state reachable from initialization. -/
theorem C9_nonce_copies_agree (dg : String → Nat) (cr : RootFn) (sv : SigFn) :
    (∀ (now : Int) (e : OfflineEscrowAccount) (r : NonceRegistry) (args : SettleArgs)
        (er : OfflineEscrowAccount × NonceRegistry),
        settle_offline_payment dg cr sv now e r args = Except.ok er →
        er.1.last_nonce = args.payer_nonce ∧ er.2.last_nonce = args.payer_nonce) ∧
    (∀ (e : OfflineEscrowAccount) (a : Nat) (e' : OfflineEscrowAccount),
        fund_escrow e a = Except.ok e' → e'.last_nonce = e.last_nonce) ∧
    (∀ (e : OfflineEscrowAccount) (a : Nat) (e' : OfflineEscrowAccount),
        withdraw_escrow e a = Except.ok e' → e'.last_nonce = e.last_nonce) ∧
    (∀ (now : Int) (e : OfflineEscrowAccount) (r : NonceRegistry) (args : ReportArgs)
        (er : OfflineEscrowAccount × NonceRegistry),
        report_fraudulent_bundle dg now e r args = Except.ok er →
        er.1.last_nonce = e.last_nonce ∧ er.2.last_nonce = r.last_nonce) ∧
    (∀ (owner tok initial : Nat) (now : Int) (ops : List Op),
        nonceSync (applyOps dg cr sv (initChain owner tok initial now) ops)) := by
  refine ⟨?_, ?_, ?_, ?_, ?_⟩
  · intro now e r args er h
    obtain ⟨-, -, -, -, -, -, -, -, -, her⟩ := settle_ok_spec h
    subst her
    exact ⟨rfl, rfl⟩
  · intro e a e' h
    obtain ⟨-, -, he⟩ := fund_ok_spec h
    subst he
    rfl
  · intro e a e' h
    obtain ⟨-, -, he⟩ := withdraw_ok_spec h
    subst he
    rfl
  · intro now e r args er h
    obtain ⟨-, -, -, -, -, fb, -, -, -, -, -, her⟩ := report_ok_spec h
    subst her
    exact ⟨rfl, rfl⟩
  · intro owner tok initial now ops
    apply applyOps_nonceSync
    unfold nonceSync initChain initEscrow initNonceRegistry
    simp

/-- Claim C2: every operation is all-or-nothing — an error leaves the
whole observed state unchanged (the runtime discards all account writes
of a failed instruction); in particular a report that fails with
InsufficientFundsForSlash appends no FraudRecord. -/
theorem C2_all_or_nothing (dg : String → Nat) (cr : RootFn) (sv : SigFn) :
    (∀ (c : Chain) (a : Nat) (err : BeamError),
        fund_escrow c.escrow a = Except.error err →
        applyOp dg cr sv c (Op.fund a) = c) ∧
    (∀ (c : Chain) (a : Nat) (err : BeamError),
        withdraw_escrow c.escrow a = Except.error err →
        applyOp dg cr sv c (Op.withdraw a) = c) ∧
    (∀ (c : Chain) (now : Int) (args : SettleArgs) (err : BeamError),
        settle_offline_payment dg cr sv now c.escrow c.registry args = Except.error err →
        applyOp dg cr sv c (Op.settle now args) = c) ∧
    (∀ (c : Chain) (now : Int) (args : ReportArgs) (err : BeamError),
        report_fraudulent_bundle dg now c.escrow c.registry args = Except.error err →
        applyOp dg cr sv c (Op.report now args) = c) ∧
    (∀ (c : Chain) (now : Int) (args : ReportArgs),
        report_fraudulent_bundle dg now c.escrow c.registry args =
          Except.error BeamError.InsufficientFundsForSlash →
        (applyOp dg cr sv c (Op.report now args)).registry.fraud_records =
          c.registry.fraud_records) := by
  refine ⟨?_, ?_, ?_, ?_, ?_⟩
  · intro c a err h
    simp only [applyOp]
    rw [h]
  · intro c a err h
    simp only [applyOp]
    rw [h]
  · intro c now args err h
    simp only [applyOp]
    rw [h]
  · intro c now args err h
    simp only [applyOp]
    rw [h]
  · intro c now args h
    simp only [applyOp]
    rw [h]

/-- Claim C6: a settlement whose bundle hash is still present in
recent_bundle_hashes is rejected with DuplicateBundle — even with a
valid nonce and sufficient balance — and mutates nothing. -/
theorem C6_duplicate_bundle (dg : String → Nat) (cr : RootFn) (sv : SigFn)
    (now : Int) (c : Chain) (args : SettleArgs)
    (hid : 0 < args.bundle_id.utf8ByteSize ∧ args.bundle_id.utf8ByteSize ≤ 128)
    (hp : payerProofOk cr sv now args = true)
    (hm : merchantProofOk cr sv now args = true)
    (hown : c.registry.owner = args.payer)
    (hdup : dg args.bundle_id ∈ c.registry.recent_bundle_hashes)
    (_hn1 : c.registry.last_nonce < args.payer_nonce)
    (_hn2 : c.escrow.last_nonce < args.payer_nonce)
    (_hbal : args.amount ≤ c.escrow.escrow_balance) :
    settle_offline_payment dg cr sv now c.escrow c.registry args =
      Except.error BeamError.DuplicateBundle ∧
    applyOp dg cr sv c (Op.settle now args) = c := by
  have herr : settle_offline_payment dg cr sv now c.escrow c.registry args =
      Except.error BeamError.DuplicateBundle := by
    unfold settle_offline_payment
    rw [if_pos hid, if_pos hp, if_pos hm, if_pos hown, if_pos hdup]
  refine ⟨herr, ?_⟩
  simp only [applyOp]
  rw [herr]

end Beam

namespace Beam

/-- Claim C1: a settlement succeeds only with a nonce strictly above
both stored copies and then records it in both; with the earlier checks
satisfied, a nonce at or below the maximum of the two copies yields
InvalidNonce; and across any later operations a second accepted
settlement carries a strictly larger nonce. -/
theorem C1_nonce_strict_monotonicity (dg : String → Nat) (cr : RootFn) (sv : SigFn) :
    (∀ (now : Int) (e : OfflineEscrowAccount) (r : NonceRegistry) (args : SettleArgs)
        (er : OfflineEscrowAccount × NonceRegistry),
        settle_offline_payment dg cr sv now e r args = Except.ok er →
        r.last_nonce < args.payer_nonce ∧ e.last_nonce < args.payer_nonce ∧
        er.1.last_nonce = args.payer_nonce ∧ er.2.last_nonce = args.payer_nonce) ∧
    (∀ (now : Int) (e : OfflineEscrowAccount) (r : NonceRegistry) (args : SettleArgs),
        (0 < args.bundle_id.utf8ByteSize ∧ args.bundle_id.utf8ByteSize ≤ 128) →
        payerProofOk cr sv now args = true →
        merchantProofOk cr sv now args = true →
        r.owner = args.payer →
        dg args.bundle_id ∉ r.recent_bundle_hashes →
        args.payer_nonce ≤ max r.last_nonce e.last_nonce →
        settle_offline_payment dg cr sv now e r args =
          Except.error BeamError.InvalidNonce) ∧
    (∀ (c : Chain) (now₁ : Int) (args₁ : SettleArgs)
        (er₁ : OfflineEscrowAccount × NonceRegistry),
        settle_offline_payment dg cr sv now₁ c.escrow c.registry args₁ = Except.ok er₁ →
        ∀ (ops : List Op) (now₂ : Int) (args₂ : SettleArgs)
          (er₂ : OfflineEscrowAccount × NonceRegistry),
          settle_offline_payment dg cr sv now₂
            (applyOps dg cr sv { c with escrow := er₁.1, registry := er₁.2 } ops).escrow
            (applyOps dg cr sv { c with escrow := er₁.1, registry := er₁.2 } ops).registry
            args₂ = Except.ok er₂ →
          args₁.payer_nonce < args₂.payer_nonce) := by
  refine ⟨?_, ?_, ?_⟩
  · intro now e r args er h
    obtain ⟨-, -, -, -, -, h1, h2, -, -, her⟩ := settle_ok_spec h
    subst her
    exact ⟨h1, h2, rfl, rfl⟩
  · intro now e r args hid hp hm hown hdup hmax
    unfold settle_offline_payment
    rw [if_pos hid, if_pos hp, if_pos hm, if_pos hown, if_neg hdup]
    rcases le_max_iff.mp hmax with hle | hle
    · rw [if_neg (by omega : ¬ r.last_nonce < args.payer_nonce)]
    · by_cases h1 : r.last_nonce < args.payer_nonce
      · rw [if_pos h1, if_neg (by omega : ¬ e.last_nonce < args.payer_nonce)]
      · rw [if_neg h1]
  · intro c now₁ args₁ er₁ h1 ops now₂ args₂ er₂ h2
    obtain ⟨-, -, -, -, -, -, -, -, -, her₁⟩ := settle_ok_spec h1
    obtain ⟨-, -, -, -, -, hlt, -, -, -, -⟩ := settle_ok_spec h2
    have hmono := applyOps_lastNonce_mono dg cr sv ops
      { c with escrow := er₁.1, registry := er₁.2 }
    have h1n : er₁.2.last_nonce = args₁.payer_nonce := by
      rw [her₁]
    simp only at hmono
    omega

/-- Claim C7: verify_attestation rejects every proof whose timestamp is
non-positive or farther than 86400 seconds from now, in either
direction; a timestamp of exactly now − 86400 passes the freshness
check while now − 86401 and now + 86401 are rejected. -/
theorem C7_attestation_freshness :
    (∀ (cr : RootFn) (sv : SigFn) (proof : AttestationProof) (role : AttestationRole)
        (bundle_id : String) (payer merchant amount bundle_nonce : Nat) (now : Int),
        proof.attestation_timestamp ≤ 0 →
        verify_attestation cr sv proof role bundle_id payer merchant amount
          bundle_nonce now = false) ∧
    (∀ (cr : RootFn) (sv : SigFn) (proof : AttestationProof) (role : AttestationRole)
        (bundle_id : String) (payer merchant amount bundle_nonce : Nat) (now : Int),
        MAX_ATTESTATION_AGE < |now - proof.attestation_timestamp| →
        verify_attestation cr sv proof role bundle_id payer merchant amount
          bundle_nonce now = false) ∧
    (∀ now : Int, MAX_ATTESTATION_AGE < now →
        attestation_stale (now - MAX_ATTESTATION_AGE) now = false) ∧
    (∀ (cr : RootFn) (sv : SigFn) (proof : AttestationProof) (role : AttestationRole)
        (bundle_id : String) (payer merchant amount bundle_nonce : Nat) (now : Int),
        proof.attestation_timestamp = now - (MAX_ATTESTATION_AGE + 1) →
        verify_attestation cr sv proof role bundle_id payer merchant amount
          bundle_nonce now = false) ∧
    (∀ (cr : RootFn) (sv : SigFn) (proof : AttestationProof) (role : AttestationRole)
        (bundle_id : String) (payer merchant amount bundle_nonce : Nat) (now : Int),
        proof.attestation_timestamp = now + (MAX_ATTESTATION_AGE + 1) →
        verify_attestation cr sv proof role bundle_id payer merchant amount
          bundle_nonce now = false) := by
  have hstale : ∀ (cr : RootFn) (sv : SigFn) (proof : AttestationProof)
      (role : AttestationRole) (bundle_id : String)
      (payer merchant amount bundle_nonce : Nat) (now : Int),
      attestation_stale proof.attestation_timestamp now = true →
      verify_attestation cr sv proof role bundle_id payer merchant amount
        bundle_nonce now = false := by
    intro cr sv proof role bundle_id payer merchant amount bundle_nonce now h
    unfold verify_attestation
    rw [if_pos h]
  refine ⟨?_, ?_, ?_, ?_, ?_⟩
  · intro cr sv proof role bundle_id payer merchant amount bundle_nonce now h
    apply hstale
    unfold attestation_stale
    exact decide_eq_true (Or.inl h)
  · intro cr sv proof role bundle_id payer merchant amount bundle_nonce now h
    apply hstale
    unfold attestation_stale
    exact decide_eq_true (Or.inr h)
  · intro now h
    unfold attestation_stale
    apply decide_eq_false
    push_neg
    constructor
    · unfold MAX_ATTESTATION_AGE at h ⊢
      omega
    · have heq : now - (now - MAX_ATTESTATION_AGE) = MAX_ATTESTATION_AGE := by ring
      rw [heq]
      unfold MAX_ATTESTATION_AGE
      norm_num
  · intro cr sv proof role bundle_id payer merchant amount bundle_nonce now h
    apply hstale
    unfold attestation_stale
    apply decide_eq_true
    right
    rw [h]
    have heq : now - (now - (MAX_ATTESTATION_AGE + 1)) = MAX_ATTESTATION_AGE + 1 := by
      ring
    rw [heq]
    unfold MAX_ATTESTATION_AGE
    norm_num
  · intro cr sv proof role bundle_id payer merchant amount bundle_nonce now h
    apply hstale
    unfold attestation_stale
    apply decide_eq_true
    right
    rw [h]
    have heq : now - (now + (MAX_ATTESTATION_AGE + 1)) = -(MAX_ATTESTATION_AGE + 1) := by
      ring
    rw [heq]
    unfold MAX_ATTESTATION_AGE
    norm_num

end Beam

namespace Beam

/-- The first-match lookup succeeding implies the existence check of
report_fraudulent_bundle passes. -/
theorem hash_record_exists {dg : String → Nat} {r : NonceRegistry} {bid : String}
    {fb : BundleRecord}
    (hfind : r.bundle_history.find? (fun rec => rec.bundle_hash == dg bid) = some fb) :
    ∃ rec ∈ r.bundle_history, rec.bundle_hash = dg bid := by
  refine ⟨fb, List.mem_of_find?_eq_some hfind, ?_⟩
  have h := List.find?_some hfind
  exact beq_iff_eq.mp h

/-- A report whose (bundle_hash, conflicting_hash) pair is already in
fraud_records fails with FraudEvidenceExists. -/
theorem report_pair_error {dg : String → Nat} {now : Int}
    {e : OfflineEscrowAccount} {r : NonceRegistry} {args : ReportArgs}
    (hid : 0 < args.bundle_id.utf8ByteSize ∧ args.bundle_id.utf8ByteSize ≤ 128)
    (hch : args.conflicting_hash ≠ 0)
    (hown : r.owner = args.payer)
    (hex : ∃ rec ∈ r.bundle_history, rec.bundle_hash = dg args.bundle_id)
    (hne : dg args.bundle_id ≠ args.conflicting_hash)
    (hpair : ∃ fr ∈ r.fraud_records,
        fr.bundle_hash = dg args.bundle_id ∧
        fr.conflicting_hash = args.conflicting_hash) :
    report_fraudulent_bundle dg now e r args =
      Except.error BeamError.FraudEvidenceExists := by
  unfold report_fraudulent_bundle
  rw [if_pos hid, if_pos hch, if_pos hown, if_pos hex, if_pos hne, if_pos hpair]

/-- Claim C10: settle imposes no positivity requirement on amount — a
zero-amount settlement with an otherwise valid request succeeds,
leaving balance and total_spent unchanged while advancing both nonce
copies and appending to both rolling lists — whereas fund_escrow and
withdraw_escrow reject amount = 0 with InvalidAmount. -/
theorem C10_zero_amount_settle (dg : String → Nat) (cr : RootFn) (sv : SigFn)
    (now : Int) (e : OfflineEscrowAccount) (r : NonceRegistry) (args : SettleArgs)
    (h0 : args.amount = 0)
    (hid : 0 < args.bundle_id.utf8ByteSize ∧ args.bundle_id.utf8ByteSize ≤ 128)
    (hp : payerProofOk cr sv now args = true)
    (hm : merchantProofOk cr sv now args = true)
    (hown : r.owner = args.payer)
    (hdup : dg args.bundle_id ∉ r.recent_bundle_hashes)
    (hn1 : r.last_nonce < args.payer_nonce)
    (hn2 : e.last_nonce < args.payer_nonce)
    (hsp : e.total_spent < U64_MOD) :
    (∃ er, settle_offline_payment dg cr sv now e r args = Except.ok er ∧
      er.1.escrow_balance = e.escrow_balance ∧
      er.1.total_spent = e.total_spent ∧
      er.1.last_nonce = args.payer_nonce ∧
      er.2.last_nonce = args.payer_nonce ∧
      er.2.recent_bundle_hashes =
        pushCap MAX_RECENT_HASHES r.recent_bundle_hashes (dg args.bundle_id) ∧
      er.2.bundle_history =
        pushCap MAX_BUNDLE_HISTORY r.bundle_history (settledRecord dg now args)) ∧
    (∀ e₂ : OfflineEscrowAccount,
      fund_escrow e₂ 0 = Except.error BeamError.InvalidAmount) ∧
    (∀ e₂ : OfflineEscrowAccount,
      withdraw_escrow e₂ 0 = Except.error BeamError.InvalidAmount) := by
  have hbal : args.amount ≤ e.escrow_balance := by
    rw [h0]
    exact Nat.zero_le _
  have hsp' : e.total_spent + args.amount < U64_MOD := by
    rw [h0]
    omega
  refine ⟨⟨_, settle_complete hid hp hm hown hdup hn1 hn2 hbal hsp',
      ?_, ?_, rfl, rfl, rfl, rfl⟩, ?_, ?_⟩
  · simp [h0]
  · simp [h0]
  · intro e₂
    unfold fund_escrow
    rw [if_neg (by decide : ¬ (0:Nat) < 0)]
  · intro e₂
    unfold withdraw_escrow
    rw [if_neg (by decide : ¬ (0:Nat) < 0)]

/-- Claim C4: with the fraud-report preconditions met for a settled
bundle whose first matching record has amount A, the call slashes
exactly 2A from balance into stake_locked, bumps fraud_count, stamps
last_fraud_timestamp and floors reputation at 0; with balance below 2A
it fails with InsufficientFundsForSlash; an overflowing doubling is the
fatal Overflow error. -/
theorem C4_slash_correctness (dg : String → Nat) (now : Int)
    (e : OfflineEscrowAccount) (r : NonceRegistry) (args : ReportArgs) (fb : BundleRecord)
    (hid : 0 < args.bundle_id.utf8ByteSize ∧ args.bundle_id.utf8ByteSize ≤ 128)
    (hch : args.conflicting_hash ≠ 0)
    (hown : r.owner = args.payer)
    (hfind : r.bundle_history.find? (fun rec => rec.bundle_hash == dg args.bundle_id) = some fb)
    (hne : dg args.bundle_id ≠ args.conflicting_hash)
    (hdup : ¬(∃ fr ∈ r.fraud_records,
        fr.bundle_hash = dg args.bundle_id ∧
        fr.conflicting_hash = args.conflicting_hash)) :
    (¬ fb.amount * 2 < U64_MOD →
      report_fraudulent_bundle dg now e r args = Except.error BeamError.Overflow) ∧
    (fb.amount * 2 < U64_MOD → e.escrow_balance < fb.amount * 2 →
      report_fraudulent_bundle dg now e r args =
        Except.error BeamError.InsufficientFundsForSlash) ∧
    (fb.amount * 2 < U64_MOD → fb.amount * 2 ≤ e.escrow_balance →
      e.stake_locked + fb.amount * 2 < U64_MOD → e.fraud_count + 1 < U32_MOD →
      ∃ er, report_fraudulent_bundle dg now e r args = Except.ok er ∧
        er.1.escrow_balance + fb.amount * 2 = e.escrow_balance ∧
        er.1.stake_locked = e.stake_locked + fb.amount * 2 ∧
        er.1.fraud_count = e.fraud_count + 1 ∧
        er.1.last_fraud_timestamp = now ∧
        er.1.reputation_score = e.reputation_score - 1000 ∧
        (e.reputation_score ≤ 1000 → er.1.reputation_score = 0)) := by
  refine ⟨?_, ?_, ?_⟩
  · intro hov
    unfold report_fraudulent_bundle
    rw [if_pos hid, if_pos hch, if_pos hown, if_pos (hash_record_exists hfind),
      if_pos hne, if_neg hdup]
    simp only [hfind, checked_mul_none_of_ge hov]
  · intro hmul hlt
    unfold report_fraudulent_bundle
    rw [if_pos hid, if_pos hch, if_pos hown, if_pos (hash_record_exists hfind),
      if_pos hne, if_neg hdup]
    simp only [hfind, checked_mul_of_lt hmul,
      if_neg (by omega : ¬ fb.amount * 2 ≤ e.escrow_balance)]
  · intro hmul hbal hst hfc
    refine ⟨_, report_complete hid hch hown hfind hne hdup hmul hbal hst hfc,
      ?_, rfl, rfl, rfl, rfl, ?_⟩
    · simp only
      omega
    · intro hrep
      simp only
      omega

end Beam

namespace Beam

/-- Claim C3 (amended): a report of a (bundle_hash, conflicting_hash)
pair currently present in fraud_records fails with FraudEvidenceExists,
and in particular an immediately repeated identical report fails, so
the slash is not applied twice in a row; the protection only lasts
while the pair remains in the 16-entry FIFO fraud_records — once 16
later reports have evicted it, the same pair can be reported and
slashed again. -/
theorem C3_amended_fraud_idempotence (dg : String → Nat) :
    (∀ (now : Int) (e : OfflineEscrowAccount) (r : NonceRegistry) (args : ReportArgs),
        (0 < args.bundle_id.utf8ByteSize ∧ args.bundle_id.utf8ByteSize ≤ 128) →
        args.conflicting_hash ≠ 0 →
        r.owner = args.payer →
        (∃ rec ∈ r.bundle_history, rec.bundle_hash = dg args.bundle_id) →
        dg args.bundle_id ≠ args.conflicting_hash →
        (∃ fr ∈ r.fraud_records,
          fr.bundle_hash = dg args.bundle_id ∧
          fr.conflicting_hash = args.conflicting_hash) →
        report_fraudulent_bundle dg now e r args =
          Except.error BeamError.FraudEvidenceExists) ∧
    (∀ (now now' : Int) (e : OfflineEscrowAccount) (r : NonceRegistry) (args : ReportArgs)
        (er : OfflineEscrowAccount × NonceRegistry),
        report_fraudulent_bundle dg now e r args = Except.ok er →
        report_fraudulent_bundle dg now' er.1 er.2 args =
          Except.error BeamError.FraudEvidenceExists) := by
  constructor
  · intro now e r args hid hch hown hex hne hpair
    exact report_pair_error hid hch hown hex hne hpair
  · intro now now' e r args er h
    obtain ⟨hid, hch, hown, hne, -, fb, hfind, -, -, -, -, her⟩ := report_ok_spec h
    subst her
    dsimp only
    refine report_pair_error ?_ ?_ ?_ ?_ ?_ ?_
    · exact hid
    · exact hch
    · exact hown
    · exact hash_record_exists hfind
    · exact hne
    · refine ⟨fraudRecordOf dg now args, ?_, rfl, rfl⟩
      show fraudRecordOf dg now args ∈ pushCap MAX_FRAUD_RECORDS r.fraud_records _
      unfold pushCap
      exact List.mem_append_right _ (by simp)

/-- The fraud report used in the C3 counterexample trace. -/
def repC3 (ch : Nat) : ReportArgs :=
  { bundle_id := "b"
    conflicting_hash := ch
    reason := FraudReason.Other
    payer := 1
    reporter := 7 }

/-- The settlement that puts bundle "b" (amount 5) into history. -/
def settleB : SettleArgs :=
  { amount := 5
    payer_nonce := 1
    bundle_id := "b"
    evidence := { payer_proof := none, merchant_proof := none }
    payer := 1
    merchant := 9 }

/-- One settlement followed by 17 fraud reports against "b" with
distinct conflicting hashes 101..117. -/
def opsC3a : List Op :=
  Op.settle 0 settleB :: (List.range 17).map (fun i => Op.report 0 (repC3 (101 + i)))

/-- The same trace followed by a second report of the pair
(digest "b", 101), identical to the second operation of the trace. -/
def opsC3b : List Op := opsC3a ++ [Op.report 0 (repC3 101)]

/-- Claim C3 (counterexample): the pair (digest "b", 101) is reported
inside opsC3a, evicted from the 16-entry fraud_records FIFO by the 16
subsequent reports, and the final identical report in opsC3b succeeds
and slashes again: fraud_count goes from 17 to 18 and stake_locked from
170 to 180, so an identical pair is re-slashed across this sequence. -/
theorem C3_counterexample :
    Op.report 0 (repC3 101) ∈ opsC3a ∧
    (applyOps dgB crZ svT (initChain 1 2 1000 0) opsC3a).escrow.fraud_count = 17 ∧
    (applyOps dgB crZ svT (initChain 1 2 1000 0) opsC3a).escrow.stake_locked = 170 ∧
    (applyOps dgB crZ svT (initChain 1 2 1000 0) opsC3b).escrow.fraud_count = 18 ∧
    (applyOps dgB crZ svT (initChain 1 2 1000 0) opsC3b).escrow.stake_locked = 180 :=
  ⟨by decide, by decide, by decide, by decide, by decide⟩

/-- Claim C8: along any all-successful settlement run from
initialization, bundle_history holds exactly the most recent 32 settled
records in order and recent_bundle_hashes the most recent 16 hashes;
every successful fraud report applies the same evict-oldest-then-append
step to fraud_records; and all three lists stay within their caps in
every reachable state. -/
theorem C8_bounded_fifo (dg : String → Nat) (cr : RootFn) (sv : SigFn) :
    (∀ (owner tok initial : Nat) (now0 : Int) (qs : List (Int × SettleArgs)) (c' : Chain),
        settleAll dg cr sv (initChain owner tok initial now0) qs = some c' →
        c'.registry.bundle_history =
          (qs.map (fun q => settledRecord dg q.1 q.2)).drop
            (qs.length - MAX_BUNDLE_HISTORY) ∧
        c'.registry.recent_bundle_hashes =
          (qs.map (fun q => dg q.2.bundle_id)).drop
            (qs.length - MAX_RECENT_HASHES)) ∧
    (∀ (now : Int) (e : OfflineEscrowAccount) (r : NonceRegistry) (args : ReportArgs)
        (er : OfflineEscrowAccount × NonceRegistry),
        report_fraudulent_bundle dg now e r args = Except.ok er →
        er.2.fraud_records =
          pushCap MAX_FRAUD_RECORDS r.fraud_records (fraudRecordOf dg now args)) ∧
    (∀ (owner tok initial : Nat) (now0 : Int) (ops : List Op),
        listsBounded (applyOps dg cr sv (initChain owner tok initial now0) ops)) := by
  refine ⟨?_, ?_, ?_⟩
  · intro owner tok initial now0 qs c' hrun
    have h := settleAll_tracks dg cr sv qs (initChain owner tok initial now0) c' [] []
      (by simp [initChain, initNonceRegistry])
      (by simp [initChain, initNonceRegistry])
      hrun
    simpa using h
  · intro now e r args er h
    obtain ⟨-, -, -, -, -, fb, -, -, -, -, -, her⟩ := report_ok_spec h
    subst her
    rfl
  · intro owner tok initial now0 ops
    apply applyOps_listsBounded
    refine ⟨?_, ?_, ?_⟩ <;> simp [initChain, initNonceRegistry]

end Beam

namespace Beam

/-- Concrete initialized escrow with balance 1000 used by witnesses. -/
def escrow0 : OfflineEscrowAccount := initEscrow 1 2 1000 0

/-- Concrete empty nonce registry used by witnesses. -/
def registry0 : NonceRegistry := initNonceRegistry 1

/-- The accounts produced by settling argsB1 against (escrow0, registry0). -/
def er1 : OfflineEscrowAccount × NonceRegistry :=
  ({ escrow0 with escrow_balance := 900, last_nonce := 1, total_spent := 100 },
   { registry0 with
      last_nonce := 1
      recent_bundle_hashes := [dgB "b1"]
      bundle_history := [settledRecord dgB 0 argsB1] })

theorem C9_witness : er1.1.last_nonce = 1 ∧ er1.2.last_nonce = 1 :=
  (C9_nonce_copies_agree dgB crZ svT).1 0 escrow0 registry0 argsB1 er1 (by rfl)

/-- Registry and escrow whose stored nonces are 5 and 3. -/
def registryN : NonceRegistry := { initNonceRegistry 1 with last_nonce := 5 }

def escrowN : OfflineEscrowAccount := { initEscrow 1 2 1000 0 with last_nonce := 3 }

/-- A request with nonce 4 ≤ max 5 3. -/
def argsN : SettleArgs := { argsB1 with payer_nonce := 4 }

theorem C1_witness :
    settle_offline_payment dgB crZ svT 0 escrowN registryN argsN =
      Except.error BeamError.InvalidNonce :=
  (C1_nonce_strict_monotonicity dgB crZ svT).2.1 0 escrowN registryN argsN
    (by decide) rfl rfl rfl (by decide) (by decide)

/-- Registry holding a settled bundle of amount 600. -/
def registryF : NonceRegistry :=
  { initNonceRegistry 1 with
      bundle_history :=
        [{ bundle_hash := dgB "b1", merchant := 9, amount := 600, settled_at := 0, nonce := 1 }] }

def chainF : Chain :=
  { escrow := initEscrow 1 2 1000 0
    registry := registryF
    funded := 1000
    withdrawn := 0
    slashed := 0 }

/-- A fraud report against bundle "b1". -/
def repF : ReportArgs :=
  { bundle_id := "b1"
    conflicting_hash := 777
    reason := FraudReason.Other
    payer := 1
    reporter := 7 }

theorem C2_witness :
    applyOp dgB crZ svT chainF (Op.report 0 repF) = chainF ∧
    (applyOp dgB crZ svT chainF (Op.report 0 repF)).registry.fraud_records =
      chainF.registry.fraud_records :=
  ⟨(C2_all_or_nothing dgB crZ svT).2.2.2.1 chainF 0 repF
      BeamError.InsufficientFundsForSlash (by rfl),
   (C2_all_or_nothing dgB crZ svT).2.2.2.2 chainF 0 repF (by rfl)⟩

/-- Registry holding a settled bundle of amount 100. -/
def registryG : NonceRegistry :=
  { initNonceRegistry 1 with
      bundle_history :=
        [{ bundle_hash := dgB "b1", merchant := 9, amount := 100, settled_at := 0, nonce := 1 }] }

def escrowG : OfflineEscrowAccount := initEscrow 1 2 1000 0

/-- The accounts produced by the first successful report of repF. -/
def erG : OfflineEscrowAccount × NonceRegistry :=
  ({ escrowG with
      escrow_balance := 800
      stake_locked := 200
      fraud_count := 1
      last_fraud_timestamp := 0
      reputation_score := 0 },
   { registryG with fraud_records := [fraudRecordOf dgB 0 repF] })

theorem C3_witness :
    report_fraudulent_bundle dgB 0 erG.1 erG.2 repF =
      Except.error BeamError.FraudEvidenceExists :=
  (C3_amended_fraud_idempotence dgB).2 0 0 escrowG registryG repF erG (by rfl)

/-- The settled record slashable by repF. -/
def fbG : BundleRecord :=
  { bundle_hash := dgB "b1", merchant := 9, amount := 100, settled_at := 0, nonce := 1 }

theorem C4_witness :
    ∃ er, report_fraudulent_bundle dgB 0 escrowG registryG repF = Except.ok er ∧
      er.1.escrow_balance + fbG.amount * 2 = escrowG.escrow_balance ∧
      er.1.stake_locked = escrowG.stake_locked + fbG.amount * 2 ∧
      er.1.fraud_count = escrowG.fraud_count + 1 ∧
      er.1.last_fraud_timestamp = 0 ∧
      er.1.reputation_score = escrowG.reputation_score - 1000 ∧
      (escrowG.reputation_score ≤ 1000 → er.1.reputation_score = 0) :=
  (C4_slash_correctness dgB 0 escrowG registryG repF fbG
      (by decide) (by decide) rfl (by rfl) (by decide) (by decide)).2.2
    (by decide) (by decide) (by decide) (by decide)

/-- Registry whose recent hashes already contain the hash of "b1". -/
def registryD : NonceRegistry :=
  { initNonceRegistry 1 with recent_bundle_hashes := [dgB "b1"] }

def chainD : Chain :=
  { escrow := initEscrow 1 2 1000 0
    registry := registryD
    funded := 1000
    withdrawn := 0
    slashed := 0 }

theorem C6_witness :
    settle_offline_payment dgB crZ svT 0 chainD.escrow chainD.registry argsB1 =
      Except.error BeamError.DuplicateBundle ∧
    applyOp dgB crZ svT chainD (Op.settle 0 argsB1) = chainD :=
  C6_duplicate_bundle dgB crZ svT 0 chainD argsB1
    (by decide) rfl rfl rfl (by decide) (by decide) (by decide) (by decide)

/-- A proof with a non-positive timestamp. -/
def proofStale : AttestationProof :=
  { attestation_root := 0
    attestation_nonce := 0
    attestation_timestamp := -5
    verifier_signature := 0 }

theorem C7_witness :
    verify_attestation crZ svT proofStale AttestationRole.Payer "b1" 1 9 100 1 1000 = false ∧
    attestation_stale (100000 - MAX_ATTESTATION_AGE) 100000 = false :=
  ⟨C7_attestation_freshness.1 crZ svT proofStale AttestationRole.Payer "b1" 1 9 100 1 1000
      (by decide),
   C7_attestation_freshness.2.2.1 100000 (by decide)⟩

/-- 40 distinct zero-amount settlement requests with increasing nonces
and 40 distinct one-byte bundle ids. -/
def qs40 : List (Int × SettleArgs) :=
  (List.range 40).map (fun i =>
    ((0 : Int),
     { amount := 0
       payer_nonce := i + 1
       bundle_id := String.mk [Char.ofNat (65 + i)]
       evidence := { payer_proof := none, merchant_proof := none }
       payer := 1
       merchant := 9 }))

/-- The state after the 40 settlements of qs40. -/
def cw40 : Chain :=
  (settleAll dgB crZ svT (initChain 1 2 0 0) qs40).getD (initChain 1 2 0 0)

theorem C8_witness :
    cw40.registry.bundle_history =
      (qs40.map (fun q => settledRecord dgB q.1 q.2)).drop 8 ∧
    cw40.registry.recent_bundle_hashes =
      (qs40.map (fun q => dgB q.2.bundle_id)).drop 24 := by
  have h := (C8_bounded_fifo dgB crZ svT).1 1 2 0 0 qs40 cw40 (by rfl)
  exact ⟨h.1, h.2⟩

/-- A zero-amount settlement request. -/
def argsZ : SettleArgs := { argsB1 with amount := 0 }

theorem C10_witness :
    (∃ er, settle_offline_payment dgB crZ svT 0 escrow0 registry0 argsZ = Except.ok er ∧
      er.1.escrow_balance = escrow0.escrow_balance ∧
      er.1.total_spent = escrow0.total_spent ∧
      er.1.last_nonce = argsZ.payer_nonce ∧
      er.2.last_nonce = argsZ.payer_nonce ∧
      er.2.recent_bundle_hashes =
        pushCap MAX_RECENT_HASHES registry0.recent_bundle_hashes (dgB argsZ.bundle_id) ∧
      er.2.bundle_history =
        pushCap MAX_BUNDLE_HISTORY registry0.bundle_history (settledRecord dgB 0 argsZ)) ∧
    fund_escrow escrow0 0 = Except.error BeamError.InvalidAmount ∧
    withdraw_escrow escrow0 0 = Except.error BeamError.InvalidAmount := by
  have h := C10_zero_amount_settle dgB crZ svT 0 escrow0 registry0 argsZ
    rfl (by decide) rfl rfl rfl (by decide) (by decide) (by decide) (by decide)
  exact ⟨h.1, h.2.1 escrow0, h.2.2 escrow0⟩

end Beam
